import Mathlib

/-!
Verification development for the `hippogriffe` documentation plugin
(`src/hippogriffe/_extension.py`).

The development shallowly embeds the parts of `_extension.py` that the
specification talks about:

* the public-API traversal of `_PublicApi.__init__` (an explicit worklist over
  an object graph, modelled as a step function `step` iterated by `run`);
* the lookup `_PublicApi.__getitem__` (`getItem`), including the
  builtin/stdlib/extra-module fallbacks and the two error outcomes;
* the pretty-printing pipeline `_pretty_annotation` / `_pretty_param` /
  `_pretty_fn` together with the `use_public_name` hook from
  `on_package_loaded` (the external `wadler_lindig` pretty-printer with its
  `custom` hook protocol is modelled by `pformatCore` / `rawRepr` over a small
  value universe `PyVal`; Python `eval` of forward-reference strings in a
  module namespace is modelled by an abstract environment
  `String → Option PyVal`);
* the base-class flattening `_collect_bases` (`collectBases`), with the output
  of `_resolved_bases` supplied as data on each class node;
* the source-link object selection from `on_package_loaded`
  (`urlObjects`; the git subprocess calls and URL formatting of
  `_get_repo_url` are I/O and are outside the modelled selection logic).

griffe objects are addressed by numeric identifiers (`Nat`); the graph is a
function from identifiers to node records.  Python exceptions are modelled as
explicit error values.
-/

/-! ### String helpers

Kernel-reducible counterparts of `str.startswith` / `str.endswith` /
`str.removeprefix`-after-a-successful-`startswith` check. -/

def strStarts (s p : String) : Bool :=
  decide (s.data.take p.data.length = p.data)

def strEnds (s p : String) : Bool :=
  decide (s.data.drop (s.data.length - p.data.length) = p.data)

def strDrop (s : String) (n : Nat) : String :=
  ⟨s.data.drop n⟩

def joinComma : List String → String
  | [] => ""
  | [s] => s
  | s :: rest => s ++ ", " ++ joinComma rest

/-! ### The object graph and the `_PublicApi.__init__` traversal -/

/-- A node of the griffe object graph (`griffe.Object` / `griffe.Alias`).
`aliasTarget = none` means the node is a plain `griffe.Object`;
`aliasTarget = some none` is an alias whose `final_target` raises
`AliasResolutionError`; `aliasTarget = some (some t)` is an alias whose
`final_target` is node `t`.  `members` lists `all_members.values()` in
iteration order.  `lineno` / `endlineno` / `filepath` model the attributes
used by the source-link pass (`filepath = some p` corresponds to
`isinstance(obj.filepath, pathlib.Path)`). -/
structure Node where
  name : String
  path : String
  members : List Nat
  aliasTarget : Option (Option Nat)
  lineno : Option Nat
  endlineno : Option Nat
  filepath : Option String
deriving DecidableEq

/-- The mutable state of the `while` loop in `_PublicApi.__init__`:
`objects` is `self._objects`, `toplevelObjects` is `self._toplevel_objects`,
`data` is `self._data` (an insertion-ordered map from canonical path to the
list of public paths), `seen` the visited set, and `agenda` the worklist with
its head being the element Python's `list.pop()` removes next. -/
structure TraversalState where
  objects : List Nat
  toplevelObjects : List Nat
  data : List (String × List String)
  seen : List Nat
  agenda : List (Nat × Bool)
deriving DecidableEq

/-- `seen.add(item)` (set insertion). -/
def addSeen (i : Nat) (seen : List Nat) : List Nat :=
  if i ∈ seen then seen else i :: seen

/-- `set.add` for the object sets. -/
def addObj (i : Nat) (xs : List Nat) : List Nat :=
  if i ∈ xs then xs else xs ++ [i]

/-- `self._data.setdefault(key, []).append(p)` on the insertion-ordered map. -/
def dataAppend : List (String × List String) → String → String → List (String × List String)
  | [], key, p => [(key, [p])]
  | (k, ps) :: rest, key, p =>
      if k = key then (k, ps ++ [p]) :: rest else (k, ps) :: dataAppend rest key p

/-- `self._data[key]` as an optional value (`KeyError` becomes `none`). -/
def dataFind : List (String × List String) → String → Option (List String)
  | [], _ => none
  | (k, ps) :: rest, key => if k = key then some ps else dataFind rest key

/-- The privacy filter of `_PublicApi.__init__` (lines 51-54):
`item.name.startswith("_") and not (item.name.startswith("__") and
item.name.endswith("__"))`. -/
def isPrivateName (name : String) : Bool :=
  strStarts name "_" && !(strStarts name "__" && strEnds name "__")

/-- Resolution of an item to its `final_item` (lines 55-66): a non-alias is its
own final item; an alias whose resolution raises is skipped (`none`), and an
alias whose name differs from its final target's name is skipped as well
("renaming during import counts as private"). -/
def finalItem (g : Nat → Node) (i : Nat) : Option Nat :=
  match (g i).aliasTarget with
  | none => some i
  | some none => none
  | some (some t) => if (g i).name = (g t).name then some t else none

/-- `agenda.extend((x, force) for x in members if x not in seen)` followed by
popping from the end: in the head-pops-first representation the filtered
members are prepended in reverse order. -/
def pushChildren (seen : List Nat) (force : Bool) (members : List Nat)
    (rest : List (Nat × Bool)) : List (Nat × Bool) :=
  ((members.filter (fun x => decide (x ∉ seen))).map (fun x => (x, force))).reverse ++ rest

/-- One iteration of the `while len(agenda) > 0` loop of
`_PublicApi.__init__` (lines 47-89).  On an empty agenda the state is
returned unchanged. -/
def step (g : Nat → Node) (tlpa : List String) (s : TraversalState) : TraversalState :=
  match s.agenda with
  | [] => s
  | (i, force) :: rest =>
    let seen2 := addSeen i s.seen
    if isPrivateName (g i).name then
      { s with agenda := rest, seen := seen2 }
    else
      match finalItem g i with
      | none => { s with agenda := rest, seen := seen2 }
      | some fi =>
        let tl : Bool := decide ((g i).path ∈ tlpa)
        if force || tl then
          { objects := addObj fi s.objects
            toplevelObjects := if tl then addObj fi s.toplevelObjects else s.toplevelObjects
            data := dataAppend s.data (g fi).path (g i).path
            seen := seen2
            agenda := pushChildren seen2 true (g i).members rest }
        else
          { s with agenda := pushChildren seen2 false (g i).members rest, seen := seen2 }

/-- Iterating the loop body a given number of times (the Python loop runs
until the agenda is empty; `step` is the identity on an empty agenda, so any
sufficiently large iteration count computes the loop's final state). -/
def run (g : Nat → Node) (tlpa : List String) : Nat → TraversalState → TraversalState
  | 0, s => s
  | n + 1, s => run g tlpa n (step g tlpa s)

/-- The initial state: `agenda = [(pkg, False)]`, everything else empty. -/
def initState (root : Nat) : TraversalState :=
  { objects := [], toplevelObjects := [], data := [], seen := [], agenda := [(root, false)] }

/-! ### `_PublicApi.__getitem__` -/

/-- The data carried by a `_PublicApi` instance that `__getitem__` consults:
`self._data`, `self._builtin_modules` and
`self._public_modules = stdlib_modules + extra_public_modules`. -/
structure ApiData where
  data : List (String × List String)
  builtinModules : List String
  publicModules : List String
deriving DecidableEq

/-- Outcome of `_PublicApi.__getitem__`: a returned pair, the
`_NotInPublicApiException`, or the ambiguity `ValueError` listing every
recorded path. -/
inductive Looked where
  | ok (path : String) (autoref : Bool)
  | errNotPublic
  | errAmbiguous (paths : List String)
deriving DecidableEq

/-- `_PublicApi.__getitem__` (lines 97-120). -/
def getItem (api : ApiData) (key : String) : Looked :=
  match dataFind api.data key with
  | some paths =>
    match paths with
    | [p] => .ok p true
    | _ => .errAmbiguous paths
  | none =>
    match api.builtinModules.find? (fun q => strStarts key (q ++ ".")) with
    | some m => .ok (strDrop key (m.data.length + 1)) false
    | none =>
      match api.publicModules.find? (fun q => strStarts key (q ++ ".")) with
      | some _ => .ok key false
      | none => .errNotPublic

/-- Constructing the lookup data exactly as `_PublicApi.__init__` does:
`self._data` from the worklist traversal, `self._builtin_modules` kept, and
`self._public_modules = stdlib_modules + extra_public_modules`. -/
def mkPublicApi (g : Nat → Node) (root : Nat) (tlpa : List String)
    (builtinModules stdlibModules extraPublicModules : List String) (fuel : Nat) : ApiData :=
  { data := (run g tlpa fuel (initState root)).data
    builtinModules := builtinModules
    publicModules := stdlibModules ++ extraPublicModules }

/-! ### The pretty-printing pipeline and the `use_public_name` hook -/

/-- A runtime class object, identified by its `__module__` and `__qualname__`
as used on line 340; `isNoneType` models the identity test
`obj is type(None)` on line 339. -/
structure PyType where
  module : String
  qualname : String
  isNoneType : Bool
deriving DecidableEq

/-- A primitive argument of a `Literal[...]` annotation. -/
inductive LitV where
  | s (v : String)
  | i (v : Int)
  | b (v : Bool)
  | noneV
deriving DecidableEq

/-- The universe of runtime values the pretty-printing claims range over:
strings (forward references or string literals), class objects, `Literal`
annotations (the only values with `get_origin(obj) is Literal`), binary
unions such as `X | None`, and everything else represented by its rendered
text. -/
inductive PyVal where
  | str (s : String)
  | ty (t : PyType)
  | lit (args : List LitV)
  | union (a b : PyVal)
  | other (r : String)
deriving DecidableEq

/-- `get_origin(obj) is Literal` (line 332). -/
def isLit : PyVal → Bool
  | .lit _ => true
  | _ => false

/-- Rendering of a single `Literal` argument by the pretty-printer. -/
def litRepr : LitV → String
  | .s v => "'" ++ v ++ "'"
  | .i v => toString v
  | .b v => if v then "True" else "False"
  | .noneV => "None"

/-- Verbatim rendering of a value, modelling the external `wadler_lindig`
pretty-printer with no substitution hook (`wl.pdoc(obj, width=9999)`, and the
default rendering used when the hook returns `None`). -/
def rawRepr : PyVal → String
  | .str s => "'" ++ s ++ "'"
  | .ty t => if t.isNoneType then "None" else t.qualname
  | .lit args => "Literal[" ++ joinComma (args.map litRepr) ++ "]"
  | .union a b => rawRepr a ++ " | " ++ rawRepr b
  | .other r => r

/-- The forward-reference evaluation on lines 335-337: when a context is
available and the value is a string, `eval` it in that context with every
exception suppressed (an evaluation failure leaves the string unchanged).
Python `eval` over a module namespace is modelled by an abstract environment
`String → Option PyVal`. -/
def evalStep (context : Option (String → Option PyVal)) (obj : PyVal) : PyVal :=
  match context, obj with
  | some ctx, .str s => (ctx s).getD (.str s)
  | _, obj => obj

/-- The `use_public_name` hook of `on_package_loaded` (lines 329-341).
`Literal` annotations are rendered verbatim; otherwise strings are
best-effort evaluated, and a value that is a class other than `NoneType` is
looked up under `f"{obj.__module__}.{obj.__qualname__}"` and replaced by the
resulting path.  The exceptions `public_api[...]` can raise are not caught
here and become `.error` values. -/
def usePublicName (api : ApiData) (context : Option (String → Option PyVal))
    (obj : PyVal) : Except Looked (Option String) :=
  if isLit obj then .ok (some (rawRepr obj))
  else
    match evalStep context obj with
    | .ty t =>
      if t.isNoneType then .ok none
      else
        match getItem api (t.module ++ "." ++ t.qualname) with
        | .ok p _ => .ok (some p)
        | .errNotPublic => .error .errNotPublic
        | .errAmbiguous ps => .error (.errAmbiguous ps)
    | _ => .ok none

/-- `wl.pformat(value, custom=ft.partial(use_public_name, context), width=9999)`:
the hook is consulted at every node; where it returns no document the default
rendering is used, recursing through unions. -/
def pformatCore (api : ApiData) (context : Option (String → Option PyVal)) :
    PyVal → Except Looked String
  | .union a b =>
    match usePublicName api context (.union a b) with
    | .error e => .error e
    | .ok (some s) => .ok s
    | .ok none => do
      let sa ← pformatCore api context a
      let sb ← pformatCore api context b
      pure (sa ++ " | " ++ sb)
  | v =>
    match usePublicName api context v with
    | .error e => .error e
    | .ok (some s) => .ok s
    | .ok none => .ok (rawRepr v)

/-- `_pretty_annotation` (lines 132-142): `inspect.Signature.empty` (modelled
as `none`) renders as nothing; otherwise the annotation is pretty-printed
with the module context. -/
def prettyAnn (api : ApiData) (context : String → Option PyVal) :
    Option PyVal → Except Looked (Option String)
  | none => .ok none
  | some a => (pformatCore api (some context) a).map some

/-- `inspect.Parameter.kind` values. -/
inductive InspectKind where
  | positionalOnly
  | positionalOrKeyword
  | varPositional
  | keywordOnly
  | varKeyword
deriving DecidableEq

/-- `griffe.ParameterKind` values. -/
inductive GriffeKind where
  | positionalOnly
  | positionalOrKeyword
  | varPositional
  | keywordOnly
  | varKeyword
deriving DecidableEq

/-- The `_kind_map` table (lines 123-129). -/
def kindMap : InspectKind → GriffeKind
  | .positionalOnly => .positionalOnly
  | .positionalOrKeyword => .positionalOrKeyword
  | .varPositional => .varPositional
  | .keywordOnly => .keywordOnly
  | .varKeyword => .varKeyword

/-- An `inspect.Parameter`: `ann` / `default` are `none` when the attribute is
`inspect.Signature.empty`. -/
structure PyParam where
  name : String
  ann : Option PyVal
  kind : InspectKind
  default : Option PyVal
deriving DecidableEq

/-- The `griffe.Parameter` produced by `_pretty_param`. -/
structure GriffeParam where
  name : String
  ann : Option String
  kind : GriffeKind
  default : Option String
deriving DecidableEq

/-- `_pretty_param` (lines 145-162): the annotation is pretty-printed with the
module context, while the default is pretty-printed with
`ft.partial(use_public_name, None)` — no context. -/
def prettyParam (api : ApiData) (context : String → Option PyVal)
    (p : PyParam) : Except Looked GriffeParam := do
  let a ← prettyAnn api context p.ann
  let d ← match p.default with
    | none => pure (none : Option String)
    | some dv => do
        let s ← pformatCore api none dv
        pure (some s)
  pure { name := p.name, ann := a, kind := kindMap p.kind, default := d }

/-- An `inspect.Signature`: parameters plus an optional return annotation
(`none` = `inspect.Signature.empty`). -/
structure PySignature where
  params : List PyParam
  ret : Option PyVal
deriving DecidableEq

/-- `HippogriffeExtension.on_function_instance` (lines 279-297) restricted to
the stored signature: when the callable has a `__name__` and it is
`"__init__"`, the return annotation is replaced by the empty sentinel; a
missing `__name__` (`AttributeError`) leaves the signature unchanged. -/
def onFunctionInstance (objName : Option String) (sig : PySignature) : PySignature :=
  match objName with
  | none => sig
  | some n => if n = "__init__" then { sig with ret := none } else sig

/-- `_pretty_fn` (lines 165-185) on the stored signature: pretty-print every
parameter, then the return annotation. -/
def prettyFn (api : ApiData) (context : String → Option PyVal)
    (sig : PySignature) : Except Looked (List GriffeParam × Option String) := do
  let ps ← sig.params.mapM (prettyParam api context)
  let r ← prettyAnn api context sig.ret
  pure (ps, r)

/-! ### `_collect_bases` -/

/-- One element of the output of `_resolved_bases` for a class: a builtin type
name string (the `_builtin_re` case), a resolved class (alias resolution
already applied), or a resolved non-class object (which `_collect_bases`
ignores, since it matches neither `isinstance(base, str)` nor
`isinstance(base, griffe.Class)`).  Bases dropped by the
`contextlib.suppress(...)` in `_resolved_bases` simply do not appear. -/
inductive RBase where
  | builtinB (s : String)
  | classB (c : Nat)
  | otherB
deriving DecidableEq

/-- A `griffe.Class` as seen by `_collect_bases`: its `path` and the output of
`_resolved_bases(cls)`. -/
structure ClassNode where
  path : String
  bases : List RBase
deriving DecidableEq

/-- Python `dict` assignment `d[k] = v`: overwrite in place when the key is
present, append otherwise. -/
def setBase : List (String × Bool) → String → Bool → List (String × Bool)
  | [], k, v => [(k, v)]
  | (k', v') :: rest, k, v =>
      if k' = k then (k, v) :: rest else (k', v') :: setBase rest k v

/-- Python `dict.update(d2)`: assign every entry of `d2` in order. -/
def updateBases (bs : List (String × Bool)) : List (String × Bool) → List (String × Bool)
  | [] => bs
  | (k, v) :: rest => updateBases (setBase bs k v) rest

/-- Failure modes of `collectBases`: the ambiguity `ValueError` escaping from
`public_api[...]` (only `_NotInPublicApiException` is caught), or recursion
fuel running out (Python would exceed the recursion limit on cyclic base
graphs). -/
inductive CBErr where
  | fuelOut
  | ambiguous (paths : List String)
deriving DecidableEq

/-- The body of the `for base in _resolved_bases(cls)` loop of
`_collect_bases` (lines 215-228), with `rec` standing for the recursive call
on the fuel below. -/
def baseStep (cg : Nat → ClassNode) (api : ApiData) (pm : List String)
    (rec : Nat → Except CBErr (List (String × Bool)))
    (acc : List (String × Bool)) (b : RBase) : Except CBErr (List (String × Bool)) :=
  match b with
  | .builtinB s => .ok (if "builtins" ∈ pm then setBase acc s false else acc)
  | .otherB => .ok acc
  | .classB c =>
    match getItem api (cg c).path with
    | .ok p autoref => .ok (setBase acc p autoref)
    | .errNotPublic => (rec c).map (fun sub => updateBases acc sub)
    | .errAmbiguous ps => .error (.ambiguous ps)

/-- `_collect_bases(cls, public_api, public_modules)` (lines 212-228), with an
explicit recursion-depth fuel. -/
def collectBases (cg : Nat → ClassNode) (api : ApiData) (pm : List String) :
    Nat → Nat → Except CBErr (List (String × Bool))
  | 0, _ => .error .fuelOut
  | fuel + 1, c =>
    (cg c).bases.foldlM (baseStep cg api pm (fun c' => collectBases cg api pm fuel c')) []

/-- The keys of a collected base mapping (the displayed base names). -/
def keysOf (bs : List (String × Bool)) : List String :=
  bs.map Prod.fst

/-! ### Source-link selection (`on_package_loaded`, lines 360-377) -/

/-- The `hippogriffe.show_source_links` configuration values. -/
inductive ShowSourceLinks where
  | noLinks
  | toplevelOnly
  | allObjects
deriving DecidableEq

/-- The guard on lines 369-373: the object has a `lineno`, an `endlineno` and
a `pathlib.Path` file path. -/
def hasLocation (n : Node) : Bool :=
  n.lineno.isSome && n.endlineno.isSome && n.filepath.isSome

/-- The `api_iterable` selected on lines 360-367: `()` for `"none"`,
`public_api.toplevel()` for `"toplevel"`, the whole `public_api` for
`"all"`. -/
def linkTargets (cfg : ShowSourceLinks) (s : TraversalState) : List Nat :=
  match cfg with
  | .noLinks => []
  | .toplevelOnly => s.toplevelObjects
  | .allObjects => s.objects

/-- The objects that receive a source-link URL (lines 368-377): the selected
iterable filtered by `hasLocation`.  (The URL string itself is produced by
`_get_repo_url` and `str.format`, which involve git subprocess I/O and are
not part of the selection logic modelled here.) -/
def urlObjects (g : Nat → Node) (cfg : ShowSourceLinks) (s : TraversalState) : List Nat :=
  (linkTargets cfg s).filter (fun i => hasLocation (g i))

/-! ### Concrete instances used by counterexamples and witnesses -/

/-- A node with every optional attribute absent. -/
def blankNode : Node :=
  { name := "", path := "", members := [], aliasTarget := none,
    lineno := none, endlineno := none, filepath := none }

/-- Root module `pkg` whose sole member is the re-export `pkg.Foo`. -/
def exNode0 : Node := { blankNode with name := "pkg", path := "pkg", members := [1] }

/-- The alias `pkg.Foo`, re-exporting `pkg._impl.Foo` under the same name. -/
def exNode1 : Node := { blankNode with name := "Foo", path := "pkg.Foo", aliasTarget := some (some 2) }

/-- The canonical definition `pkg._impl.Foo`. -/
def exNode2 : Node := { blankNode with name := "Foo", path := "pkg._impl.Foo" }

/-- The example graph: a package re-exporting one private-module class. -/
def exG : Nat → Node := fun i => [exNode0, exNode1, exNode2].getD i blankNode

/-- The declared top-level public API of the example graph. -/
def exT : List String := ["pkg.Foo"]

/-- The `_PublicApi` built over the example graph. -/
def exApi : ApiData := mkPublicApi exG 0 exT [] [] [] 10

/-- An alias that renames its target on import. -/
def renNode0 : Node :=
  { blankNode with name := "new_name", path := "pkg.new_name", aliasTarget := some (some 1) }

/-- The differently-named target of the renaming alias. -/
def renNode1 : Node := { blankNode with name := "old_name", path := "pkg._impl.old_name" }

/-- Graph containing the renaming alias. -/
def gRen : Nat → Node := fun i => if i = 0 then renNode0 else renNode1

/-- A graph whose node 0 has a private, non-dunder name. -/
def gPriv : Nat → Node := fun _ => { blankNode with name := "_hidden", path := "pkg._hidden" }

/-! ### Claim theorems -/

/-- C1 counterexample: in the example graph the canonical path
`pkg._impl.Foo` is recorded in the index with the single public path
`pkg.Foo`, and lookup of the canonical path returns the pair
`("pkg.Foo", True)` — the recorded public path — not the pair
`("pkg._impl.Foo", True)` built from the canonical path itself, contrary to
the claim as stated. -/
theorem lookup_single_returns_recorded_path :
    dataFind exApi.data "pkg._impl.Foo" = some ["pkg.Foo"] ∧
    getItem exApi "pkg._impl.Foo" = .ok "pkg.Foo" true ∧
    getItem exApi "pkg._impl.Foo" ≠ .ok "pkg._impl.Foo" true := by
  decide

/-- C1 (amended): for every canonical path recorded in the public-API index,
lookup of that path returns the pair (unique recorded public path,
needs_autoref=True) when exactly one public path maps to it, and raises the
distinct 'ambiguous' error listing every recorded path when more than one
path maps to it. -/
theorem lookup_recorded_cases (api : ApiData) (key p : String) (ps : List String)
    (h : dataFind api.data key = some ps) :
    (ps = [p] → getItem api key = .ok p true) ∧
    (1 < ps.length → getItem api key = .errAmbiguous ps) := by
  constructor
  · intro hp
    subst hp
    simp [getItem, h]
  · intro hl
    rcases ps with _ | ⟨x, _ | ⟨y, rest⟩⟩
    · simp at hl
    · simp at hl
    · simp [getItem, h]

/-- C1 witness: instantiating the amended lookup theorem on a concrete
one-entry index. -/
theorem lookup_recorded_cases_app :
    getItem ⟨[("pkg._impl.Foo", ["pkg.Foo"])], [], []⟩ "pkg._impl.Foo" = .ok "pkg.Foo" true :=
  (lookup_recorded_cases ⟨[("pkg._impl.Foo", ["pkg.Foo"])], [], []⟩ "pkg._impl.Foo"
    "pkg.Foo" ["pkg.Foo"] (by decide)).1 rfl

/-- C3: an alias item whose name differs from the name of its fully-resolved
final target is treated exactly like a private item when popped: the step
only removes it from the agenda and marks it seen — nothing is recorded in
the index or the object sets, and none of its members are pushed, so no
descendant is ever reached through that alias path. -/
theorem renamed_alias_skipped (g : Nat → Node) (tlpa : List String)
    (s : TraversalState) (i : Nat) (f : Bool) (rest : List (Nat × Bool)) (t : Nat)
    (hag : s.agenda = (i, f) :: rest)
    (ha : (g i).aliasTarget = some (some t))
    (hn : (g i).name ≠ (g t).name) :
    step g tlpa s = { s with agenda := rest, seen := addSeen i s.seen } := by
  obtain ⟨o, tp, d, sn, ag⟩ := s
  simp only at hag
  subst hag
  by_cases hp : isPrivateName (g i).name = true
  · simp [step, hp]
  · have hf : finalItem g i = none := by simp [finalItem, ha, hn]
    simp [step, hp, hf]

/-- C3 witness: popping the renaming alias of `gRen` records nothing and
pushes nothing. -/
theorem renamed_alias_skipped_app :
    step gRen [] ⟨[], [], [], [], [(0, false)]⟩ = ⟨[], [], [], addSeen 0 [], []⟩ :=
  renamed_alias_skipped gRen [] ⟨[], [], [], [], [(0, false)]⟩ 0 false [] 1
    rfl rfl (by decide)

/-- C5: popping an item whose name starts with an underscore and is not a
dunder name skips it entirely — nothing is recorded and its children are not
pushed onto the agenda; and the privacy filter lets every dunder name
through. -/
theorem private_name_skipped (g : Nat → Node) (tlpa : List String)
    (s : TraversalState) (i : Nat) (f : Bool) (rest : List (Nat × Bool)) :
    (s.agenda = (i, f) :: rest →
      strStarts (g i).name "_" = true →
      ¬(strStarts (g i).name "__" = true ∧ strEnds (g i).name "__" = true) →
      step g tlpa s = { s with agenda := rest, seen := addSeen i s.seen }) ∧
    (∀ nm : String, strStarts nm "__" = true → strEnds nm "__" = true →
      isPrivateName nm = false) := by
  constructor
  · intro hag h1 h2
    have hp : isPrivateName (g i).name = true := by
      unfold isPrivateName
      rw [h1]
      cases hs : strStarts (g i).name "__" <;> cases he : strEnds (g i).name "__" <;> simp_all
    obtain ⟨o, tp, d, sn, ag⟩ := s
    simp only at hag
    subst hag
    simp [step, hp]
  · intro nm hs he
    simp [isPrivateName, hs, he]

/-- C5 witness: popping the `_hidden` item of `gPriv` records nothing and
pushes nothing. -/
theorem private_name_skipped_app :
    step gPriv [] ⟨[], [], [], [], [(0, false)]⟩ = ⟨[], [], [], addSeen 0 [], []⟩ :=
  (private_name_skipped gPriv [] ⟨[], [], [], [], [(0, false)]⟩ 0 false []).1
    rfl (by decide) (by decide)

/-- C8: for a key absent from the index, lookup first consults the
builtin-module prefixes, returning the key with the matching prefix and dot
stripped and `needs_autoref=False`; otherwise the stdlib/extra public-module
prefixes, returning the key unchanged and `needs_autoref=False`; otherwise it
raises the 'not public' error — it never returns a value. -/
theorem absent_key_fallbacks (api : ApiData) (key : String)
    (h : dataFind api.data key = none) :
    (∀ m, api.builtinModules.find? (fun q => strStarts key (q ++ ".")) = some m →
      getItem api key = .ok (strDrop key (m.data.length + 1)) false) ∧
    (api.builtinModules.find? (fun q => strStarts key (q ++ ".")) = none →
      ∀ m, api.publicModules.find? (fun q => strStarts key (q ++ ".")) = some m →
        getItem api key = .ok key false) ∧
    (api.builtinModules.find? (fun q => strStarts key (q ++ ".")) = none →
      api.publicModules.find? (fun q => strStarts key (q ++ ".")) = none →
      getItem api key = .errNotPublic) := by
  refine ⟨?_, ?_, ?_⟩
  · intro m hm
    simp [getItem, h, hm]
  · intro hb m hm
    simp [getItem, h, hb, hm]
  · intro hb hp
    simp [getItem, h, hb, hp]

/-- C8 witness: with builtin module list `["builtins"]`, the absent key
`builtins.int` is stripped to `int` with `needs_autoref=False`. -/
theorem absent_key_fallbacks_app :
    getItem ⟨[], ["builtins"], []⟩ "builtins.int" = .ok "int" false :=
  (absent_key_fallbacks ⟨[], ["builtins"], []⟩ "builtins.int" rfl).1 "builtins" rfl

/-- A parameter whose default value is the (runtime class) `pkg._impl.Foo`. -/
def exParam : PyParam :=
  { name := "x", ann := none, kind := .positionalOrKeyword,
    default := some (.ty ⟨"pkg._impl", "Foo", false⟩) }

/-- C2 counterexample: in the example public API the parameter default that is
itself a class *is* replaced by its canonical public path: the rendered
default display is `pkg.Foo`, exactly the path the public-API index returns,
and not the verbatim rendering `Foo` — contrary to the claim that the
rendered default display never replaces any value with a canonical
public-API path.  (Only the string-evaluation context is withheld from
defaults, not the type substitution.) -/
theorem default_class_value_substituted :
    prettyParam exApi (fun _ => none) exParam =
      .ok { name := "x", ann := none, kind := .positionalOrKeyword,
            default := some "pkg.Foo" } ∧
    getItem exApi "pkg._impl.Foo" = .ok "pkg.Foo" true ∧
    rawRepr (.ty ⟨"pkg._impl", "Foo", false⟩) = "Foo" ∧
    "pkg.Foo" ≠ "Foo" :=
  ⟨rfl, by decide, rfl, by decide⟩

/-- C2 (amended): defaults are pretty-printed without the type-substitution
context: a string-valued default is rendered verbatim and never resolved into
a type (regardless of what the module context would resolve it to), unlike
the parameter's annotation; a default that is itself a class object is,
however, still substituted with its canonical public path. -/
theorem string_default_not_resolved (api : ApiData) (context : String → Option PyVal)
    (p : PyParam) (s : String)
    (hd : p.default = some (.str s)) (ha : p.ann = none) :
    prettyParam api context p =
      .ok { name := p.name, ann := none, kind := kindMap p.kind,
            default := some ("'" ++ s ++ "'") } := by
  obtain ⟨nm, a0, k, d0⟩ := p
  simp only at hd ha
  subst hd
  subst ha
  rfl

/-- C2 witness: even with a context that resolves the string `int` to the
builtin `int` type (which the builtins fallback would substitute), the
string-valued default renders verbatim as `'int'`. -/
theorem string_default_not_resolved_app :
    prettyParam ⟨[], ["builtins"], []⟩ (fun _ => some (.ty ⟨"builtins", "int", false⟩))
      ⟨"x", none, .positionalOrKeyword, some (.str "int")⟩ =
      .ok ⟨"x", none, .positionalOrKeyword, some "'int'"⟩ :=
  string_default_not_resolved ⟨[], ["builtins"], []⟩
    (fun _ => some (.ty ⟨"builtins", "int", false⟩))
    ⟨"x", none, .positionalOrKeyword, some (.str "int")⟩ "int" rfl rfl

/-- C6: an annotation whose origin is `Literal` is displayed verbatim by the
hook — the result does not depend on the lookup data or on the evaluation
context, so its arguments are never passed through string-to-type resolution
or public-API substitution; in particular `Literal["int", "str"]` renders the
literal strings, never the `int`/`str` types. -/
theorem literal_args_verbatim (api : ApiData)
    (context : Option (String → Option PyVal)) (args : List LitV) :
    usePublicName api context (.lit args) = .ok (some (rawRepr (.lit args))) ∧
    pformatCore api context (.lit args) = .ok (rawRepr (.lit args)) ∧
    pformatCore api context (.lit [.s "int", .s "str"]) = .ok "Literal['int', 'str']" :=
  ⟨rfl, rfl, rfl⟩

/-- C7: for a function object named `__init__` the stored signature has its
return annotation replaced by the empty sentinel, the pretty-printer renders
that empty annotation as nothing, and hence the displayed signature never
contains a return annotation, whatever the underlying callable declared. -/
theorem init_return_discarded (sig : PySignature) (api : ApiData)
    (context : String → Option PyVal) :
    (onFunctionInstance (some "__init__") sig).ret = none ∧
    prettyAnn api context (onFunctionInstance (some "__init__") sig).ret = .ok none ∧
    (∀ out, prettyFn api context (onFunctionInstance (some "__init__") sig) = .ok out →
      out.2 = none) := by
  have hsig : onFunctionInstance (some "__init__") sig = { sig with ret := none } := by
    simp [onFunctionInstance]
  refine ⟨by rw [hsig], by rw [hsig]; rfl, ?_⟩
  intro out hout
  rw [hsig] at hout
  unfold prettyFn at hout
  cases hm : sig.params.mapM (prettyParam api context) with
  | error e =>
    rw [hm] at hout
    exact Except.noConfusion hout
  | ok ps =>
    rw [hm] at hout
    have h2 : Except.ok (ps, (none : Option String)) = Except.ok out := hout
    injection h2 with h
    rw [← h]

/-- C7 witness: instantiating the `__init__` theorem on a signature that does
declare a return annotation. -/
theorem init_return_discarded_app :
    (([] : List GriffeParam), (none : Option String)).2 = none :=
  (init_return_discarded ⟨[], some (.str "None")⟩ ⟨[], [], []⟩ (fun _ => none)).2.2
    ([], none) rfl

/-- C10: the hook substitutes a canonical public path only when the examined
(best-effort evaluated) value is a class other than `NoneType`; for
`NoneType` itself and for any non-class value it produces no substitution —
so the `None` component of an optional annotation is displayed verbatim even
though the builtins fallback could resolve `builtins.NoneType`. -/
theorem substitution_only_for_classes (api : ApiData)
    (context : Option (String → Option PyVal)) (v : PyVal) :
    (∀ s, usePublicName api context v = .ok (some s) → isLit v = false →
      ∃ t, evalStep context v = .ty t ∧ t.isNoneType = false) ∧
    (isLit v = false →
      (∀ t, evalStep context v = .ty t → t.isNoneType = true) →
      usePublicName api context v = .ok none) ∧
    getItem ⟨[], ["builtins"], []⟩ "builtins.NoneType" = .ok "NoneType" false ∧
    usePublicName ⟨[], ["builtins"], []⟩ none (.ty ⟨"builtins", "NoneType", true⟩) = .ok none ∧
    pformatCore ⟨[], ["builtins"], []⟩ none
      (.union (.ty ⟨"builtins", "int", false⟩) (.ty ⟨"builtins", "NoneType", true⟩)) =
      .ok "int | None" := by
  refine ⟨?_, ?_, by decide, rfl, rfl⟩
  · intro s hs hl
    simp only [usePublicName, hl, Bool.false_eq_true, if_false] at hs
    cases hev : evalStep context v with
    | ty t =>
      rw [hev] at hs
      cases hnt : t.isNoneType with
      | true => simp [hnt] at hs
      | false => exact ⟨t, rfl, hnt⟩
    | str s' => rw [hev] at hs; simp at hs
    | lit args => rw [hev] at hs; simp at hs
    | union a b => rw [hev] at hs; simp at hs
    | other r => rw [hev] at hs; simp at hs
  · intro hl hnone
    simp only [usePublicName, hl, Bool.false_eq_true, if_false]
    cases hev : evalStep context v with
    | ty t => simp [hnone t hev]
    | str s' => rfl
    | lit args => rfl
    | union a b => rfl
    | other r => rfl

/-- C10 witness: a non-class value (a string, with no context to evaluate it)
is never replaced. -/
theorem substitution_only_for_classes_app :
    usePublicName ⟨[], [], []⟩ none (.str "x") = .ok none :=
  (substitution_only_for_classes ⟨[], [], []⟩ none (.str "x")).2.1 rfl
    (fun t h => absurd h (by simp [evalStep]))

/-! ### Helper lemmas for base collection and the traversal -/

theorem keysOf_nil : keysOf [] = [] := rfl

theorem keysOf_cons (a : String) (b : Bool) (l : List (String × Bool)) :
    keysOf ((a, b) :: l) = a :: keysOf l := rfl

theorem mem_keysOf_setBase {bs : List (String × Bool)} {k k' : String} {v : Bool} :
    k' ∈ keysOf (setBase bs k v) ↔ k' = k ∨ k' ∈ keysOf bs := by
  induction bs with
  | nil => simp [setBase, keysOf]
  | cons hd rest ih =>
    obtain ⟨a, b⟩ := hd
    by_cases hak : a = k
    · subst hak
      simp [setBase, keysOf_cons]
    · simp [setBase, hak, keysOf_cons, ih]
      tauto

theorem mem_keysOf_updateBases {sub : List (String × Bool)} :
    ∀ {acc : List (String × Bool)} {k : String},
      k ∈ keysOf (updateBases acc sub) ↔ k ∈ keysOf acc ∨ k ∈ keysOf sub := by
  induction sub with
  | nil =>
    intro acc k
    simp [updateBases, keysOf]
  | cons hd rest ih =>
    intro acc k
    obtain ⟨k0, v0⟩ := hd
    simp only [updateBases]
    rw [ih, mem_keysOf_setBase, keysOf_cons, List.mem_cons]
    tauto

theorem baseStep_keys_mono (cg : Nat → ClassNode) (api : ApiData) (pm : List String)
    (rec : Nat → Except CBErr (List (String × Bool)))
    (acc : List (String × Bool)) (b : RBase) (acc' : List (String × Bool))
    (h : baseStep cg api pm rec acc b = .ok acc') :
    ∀ k, k ∈ keysOf acc → k ∈ keysOf acc' := by
  cases b with
  | builtinB s =>
    have h2 : Except.ok (if "builtins" ∈ pm then setBase acc s false else acc) =
        Except.ok acc' := h
    injection h2 with h3
    subst h3
    by_cases hbm : "builtins" ∈ pm
    · intro k hk
      simp only [if_pos hbm]
      exact mem_keysOf_setBase.mpr (Or.inr hk)
    · intro k hk
      simpa [hbm] using hk
  | otherB =>
    have h2 : Except.ok acc = Except.ok acc' := h
    injection h2 with h3
    subst h3
    exact fun k hk => hk
  | classB c =>
    cases hg : getItem api (cg c).path with
    | ok p a =>
      rw [baseStep, hg] at h
      have h2 : Except.ok (setBase acc p a) = Except.ok acc' := h
      injection h2 with h3
      subst h3
      exact fun k hk => mem_keysOf_setBase.mpr (Or.inr hk)
    | errNotPublic =>
      rw [baseStep, hg] at h
      cases hr : rec c with
      | error e =>
        rw [hr] at h
        exact Except.noConfusion
          (show (Except.error e : Except CBErr (List (String × Bool))) = .ok acc' from h)
      | ok sub =>
        rw [hr] at h
        have h2 : Except.ok (updateBases acc sub) = Except.ok acc' := h
        injection h2 with h3
        subst h3
        exact fun k hk => mem_keysOf_updateBases.mpr (Or.inl hk)
    | errAmbiguous ps =>
      rw [baseStep, hg] at h
      exact Except.noConfusion h

theorem foldl_baseStep_keys_mono (cg : Nat → ClassNode) (api : ApiData) (pm : List String)
    (rec : Nat → Except CBErr (List (String × Bool))) :
    ∀ (l : List RBase) (acc bs : List (String × Bool)),
      l.foldlM (baseStep cg api pm rec) acc = .ok bs →
      ∀ k, k ∈ keysOf acc → k ∈ keysOf bs := by
  intro l
  induction l with
  | nil =>
    intro acc bs h k hk
    have h2 : Except.ok acc = Except.ok bs := h
    injection h2 with h3
    subst h3
    exact hk
  | cons b rest ih =>
    intro acc bs h k hk
    rw [List.foldlM_cons] at h
    cases hb : baseStep cg api pm rec acc b with
    | error e =>
      rw [hb] at h
      exact Except.noConfusion h
    | ok acc' =>
      rw [hb] at h
      exact ih acc' bs h k (baseStep_keys_mono cg api pm rec acc b acc' hb k hk)

theorem foldl_baseStep_origin (cg : Nat → ClassNode) (api : ApiData) (pm : List String)
    (rec : Nat → Except CBErr (List (String × Bool)))
    (Hrec : ∀ c bs, rec c = .ok bs →
      ∀ k, k ∈ keysOf bs → ("builtins" ∈ pm) ∨ ∃ key a, getItem api key = .ok k a) :
    ∀ (l : List RBase) (acc bs : List (String × Bool)),
      (∀ k, k ∈ keysOf acc → ("builtins" ∈ pm) ∨ ∃ key a, getItem api key = .ok k a) →
      l.foldlM (baseStep cg api pm rec) acc = .ok bs →
      ∀ k, k ∈ keysOf bs → ("builtins" ∈ pm) ∨ ∃ key a, getItem api key = .ok k a := by
  intro l
  induction l with
  | nil =>
    intro acc bs hacc h
    have h2 : Except.ok acc = Except.ok bs := h
    injection h2 with h3
    subst h3
    exact hacc
  | cons b rest ih =>
    intro acc bs hacc h
    rw [List.foldlM_cons] at h
    cases b with
    | builtinB s =>
      by_cases hbm : "builtins" ∈ pm
      · intro k hk
        exact Or.inl hbm
      · rw [baseStep, if_neg hbm] at h
        exact ih acc bs hacc h
    | otherB =>
      rw [baseStep] at h
      exact ih acc bs hacc h
    | classB c =>
      cases hg : getItem api (cg c).path with
      | ok p a =>
        rw [baseStep, hg] at h
        refine ih (setBase acc p a) bs ?_ h
        intro k hk
        rcases mem_keysOf_setBase.mp hk with h4 | h4
        · subst h4
          exact Or.inr ⟨(cg c).path, a, hg⟩
        · exact hacc k h4
      | errNotPublic =>
        rw [baseStep, hg] at h
        cases hr : rec c with
        | error e =>
          rw [hr] at h
          exact absurd (show (Except.error e : Except CBErr (List (String × Bool))) =
            .ok bs from h) (by simp)
        | ok sub =>
          rw [hr] at h
          refine ih (updateBases acc sub) bs ?_ h
          intro k hk
          rcases mem_keysOf_updateBases.mp hk with h4 | h4
          · exact hacc k h4
          · exact Hrec c sub hr k h4
      | errAmbiguous ps =>
        rw [baseStep, hg] at h
        exact absurd (show (Except.error (CBErr.ambiguous ps) :
          Except CBErr (List (String × Bool))) = .ok bs from h) (by simp)

theorem foldl_baseStep_ok_mem (cg : Nat → ClassNode) (api : ApiData) (pm : List String)
    (rec : Nat → Except CBErr (List (String × Bool))) :
    ∀ (l : List RBase) (acc bs : List (String × Bool)) (c' : Nat) (p : String) (a : Bool),
      RBase.classB c' ∈ l → getItem api (cg c').path = .ok p a →
      l.foldlM (baseStep cg api pm rec) acc = .ok bs →
      p ∈ keysOf bs := by
  intro l
  induction l with
  | nil =>
    intro acc bs c' p a hmem
    simp at hmem
  | cons b rest ih =>
    intro acc bs c' p a hmem hg h
    rw [List.foldlM_cons] at h
    rcases List.mem_cons.mp hmem with heq | hmem'
    · subst heq
      rw [baseStep, hg] at h
      exact foldl_baseStep_keys_mono cg api pm rec rest (setBase acc p a) bs h p
        (mem_keysOf_setBase.mpr (Or.inl rfl))
    · cases hb : baseStep cg api pm rec acc b with
      | error e =>
        rw [hb] at h
        exact Except.noConfusion h
      | ok acc' =>
        rw [hb] at h
        exact ih acc' bs c' p a hmem' hg h

theorem foldl_baseStep_flatten (cg : Nat → ClassNode) (api : ApiData) (pm : List String)
    (rec : Nat → Except CBErr (List (String × Bool))) :
    ∀ (l : List RBase) (acc bs : List (String × Bool)) (c' : Nat),
      RBase.classB c' ∈ l → getItem api (cg c').path = .errNotPublic →
      l.foldlM (baseStep cg api pm rec) acc = .ok bs →
      ∃ sub, rec c' = .ok sub ∧ ∀ k, k ∈ keysOf sub → k ∈ keysOf bs := by
  intro l
  induction l with
  | nil =>
    intro acc bs c' hmem
    simp at hmem
  | cons b rest ih =>
    intro acc bs c' hmem hg h
    rw [List.foldlM_cons] at h
    rcases List.mem_cons.mp hmem with heq | hmem'
    · subst heq
      rw [baseStep, hg] at h
      cases hr : rec c' with
      | error e =>
        rw [hr] at h
        exact absurd (show (Except.error e : Except CBErr (List (String × Bool))) =
          .ok bs from h) (by simp)
      | ok sub =>
        rw [hr] at h
        refine ⟨sub, rfl, ?_⟩
        intro k hk
        exact foldl_baseStep_keys_mono cg api pm rec rest (updateBases acc sub) bs h k
          (mem_keysOf_updateBases.mpr (Or.inr hk))
    · cases hb : baseStep cg api pm rec acc b with
      | error e =>
        rw [hb] at h
        exact Except.noConfusion h
      | ok acc' =>
        rw [hb] at h
        exact ih acc' bs c' hmem' hg h

/-- A public base class, recorded in the example index as `pkg.Pub`. -/
def exPub : ClassNode := { path := "pkg._impl.Pub", bases := [] }

/-- A private intermediate base class inheriting from the public one. -/
def exMid : ClassNode := { path := "pkg._impl._Mid", bases := [.classB 0] }

/-- A class inheriting from the private intermediate base. -/
def exC : ClassNode := { path := "pkg._impl.C", bases := [.classB 1] }

/-- The example class graph `C(_Mid)`, `_Mid(Pub)`. -/
def exCg : Nat → ClassNode := fun i => [exPub, exMid, exC].getD i exPub

/-- The example lookup data for the class graph: only `Pub` is public, under
the path `pkg.Pub`. -/
def exApi4 : ApiData := ⟨[("pkg._impl.Pub", ["pkg.Pub"])], [], []⟩

/-- C4: base-class flattening.  (i) every displayed base name comes from a
successful public-API lookup, or is a builtin name admitted because
`builtins` is a configured public module — a base not in the index never
appears under its own name; (ii) a resolved-class base whose path is in the
index is recorded under its canonical public path with its autoref flag;
(iii) a resolved-class base not in the index is replaced by its own collected
bases, recursively; (iv) concretely, `C(_Mid)` with private `_Mid(Pub)`
reports `pkg.Pub`, not `_Mid`. -/
theorem base_flattening (cg : Nat → ClassNode) (api : ApiData) (pm : List String) :
    (∀ fuel c bs, collectBases cg api pm fuel c = .ok bs →
      ∀ k, k ∈ keysOf bs → ("builtins" ∈ pm) ∨ ∃ key a, getItem api key = .ok k a) ∧
    (∀ fuel c c' p a bs, RBase.classB c' ∈ (cg c).bases →
      getItem api (cg c').path = .ok p a →
      collectBases cg api pm (fuel + 1) c = .ok bs → p ∈ keysOf bs) ∧
    (∀ fuel c c' bs, RBase.classB c' ∈ (cg c).bases →
      getItem api (cg c').path = .errNotPublic →
      collectBases cg api pm (fuel + 1) c = .ok bs →
      ∃ sub, collectBases cg api pm fuel c' = .ok sub ∧
        ∀ k, k ∈ keysOf sub → k ∈ keysOf bs) ∧
    collectBases exCg exApi4 [] 3 2 = .ok [("pkg.Pub", true)] ∧
    "pkg._impl._Mid" ∉ keysOf [("pkg.Pub", true)] := by
  refine ⟨?_, ?_, ?_, rfl, by decide⟩
  · intro fuel
    induction fuel with
    | zero =>
      intro c bs h
      exact Except.noConfusion h
    | succ fuel ih =>
      intro c bs h
      rw [collectBases] at h
      exact foldl_baseStep_origin cg api pm (fun c' => collectBases cg api pm fuel c')
        ih (cg c).bases [] bs (by intro k hk; simp [keysOf] at hk) h
  · intro fuel c c' p a bs hmem hg h
    rw [collectBases] at h
    exact foldl_baseStep_ok_mem cg api pm (fun x => collectBases cg api pm fuel x)
      (cg c).bases [] bs c' p a hmem hg h
  · intro fuel c c' bs hmem hg h
    rw [collectBases] at h
    exact foldl_baseStep_flatten cg api pm (fun x => collectBases cg api pm fuel x)
      (cg c).bases [] bs c' hmem hg h

/-- C4 witness: instantiating the in-index conjunct on the example graph —
`_Mid`'s public base `Pub` is recorded under `pkg.Pub`. -/
theorem base_flattening_app :
    "pkg.Pub" ∈ keysOf [("pkg.Pub", true)] :=
  (base_flattening exCg exApi4 []).2.1 1 1 0 "pkg.Pub" true [("pkg.Pub", true)]
    (by decide) (by decide) rfl

theorem mem_addObj {x i : Nat} {xs : List Nat} (h : x ∈ addObj i xs) : x = i ∨ x ∈ xs := by
  unfold addObj at h
  by_cases hi : i ∈ xs
  · rw [if_pos hi] at h
    exact Or.inr h
  · rw [if_neg hi] at h
    rcases List.mem_append.mp h with h2 | h2
    · exact Or.inr h2
    · exact Or.inl (List.mem_singleton.mp h2)

theorem step_toplevel_origin (g : Nat → Node) (tlpa : List String) (s : TraversalState)
    (x : Nat) (hx : x ∈ (step g tlpa s).toplevelObjects) :
    x ∈ s.toplevelObjects ∨ ∃ j, (g j).path ∈ tlpa ∧ finalItem g j = some x := by
  obtain ⟨o, tp, d, sn, ag⟩ := s
  cases ag with
  | nil => exact Or.inl hx
  | cons hd rest =>
    obtain ⟨i, f⟩ := hd
    by_cases hp : isPrivateName (g i).name = true
    · left
      simpa [step, hp] using hx
    · cases hfi : finalItem g i with
      | none =>
        left
        simpa [step, hp, hfi] using hx
      | some fi =>
        simp only [step, hp, hfi] at hx
        by_cases htl : (g i).path ∈ tlpa
        · simp [htl] at hx
          rcases mem_addObj hx with h2 | h2
          · exact Or.inr ⟨i, htl, by rw [hfi, h2]⟩
          · exact Or.inl h2
        · simp [htl] at hx
          cases hf : f with
          | true =>
            simp [hf] at hx
            exact Or.inl hx
          | false =>
            simp [hf] at hx
            exact Or.inl hx

theorem run_toplevel_origin (g : Nat → Node) (tlpa : List String) :
    ∀ (n : Nat) (s : TraversalState) (x : Nat),
      x ∈ (run g tlpa n s).toplevelObjects →
      x ∈ s.toplevelObjects ∨ ∃ j, (g j).path ∈ tlpa ∧ finalItem g j = some x := by
  intro n
  induction n with
  | zero =>
    intro s x hx
    exact Or.inl hx
  | succ n ih =>
    intro s x hx
    rcases ih (step g tlpa s) x hx with h | h
    · exact step_toplevel_origin g tlpa s x h
    · exact Or.inr h

/-- C9: with `show_source_links = "toplevel"` a source-link URL is attached
only to objects that are the resolved final targets of paths in the declared
top-level-public root set (and have a known location) — no other transitively
public object is selected; with `"none"` no object is selected; with `"all"`
every public object with a known file path and line range is selected. -/
theorem source_link_selection (g : Nat → Node) (tlpa : List String)
    (root fuel : Nat) (cfg : ShowSourceLinks) :
    (cfg = .noLinks → urlObjects g cfg (run g tlpa fuel (initState root)) = []) ∧
    (cfg = .toplevelOnly → ∀ i, i ∈ urlObjects g cfg (run g tlpa fuel (initState root)) →
      hasLocation (g i) = true ∧ ∃ j, (g j).path ∈ tlpa ∧ finalItem g j = some i) ∧
    (cfg = .allObjects → ∀ i, i ∈ (run g tlpa fuel (initState root)).objects →
      hasLocation (g i) = true → i ∈ urlObjects g cfg (run g tlpa fuel (initState root))) := by
  refine ⟨?_, ?_, ?_⟩
  · intro hc
    subst hc
    rfl
  · intro hc i hi
    subst hc
    unfold urlObjects linkTargets at hi
    rw [List.mem_filter] at hi
    obtain ⟨hmem, hloc⟩ := hi
    refine ⟨hloc, ?_⟩
    rcases run_toplevel_origin g tlpa fuel (initState root) i hmem with h | h
    · simp [initState] at h
    · exact h
  · intro hc i hi hloc
    subst hc
    unfold urlObjects linkTargets
    rw [List.mem_filter]
    exact ⟨hi, hloc⟩

/-- C9 witness: with `"none"` configured, no object of the example traversal
receives a URL. -/
theorem source_link_selection_app :
    urlObjects exG .noLinks (run exG exT 10 (initState 0)) = [] :=
  (source_link_selection exG exT 0 10 .noLinks).1 rfl
